import Mathlib

/-!
Verification development for the `service-wru-validator` repository.

The repository ships the deployment plumbing (CDK stack, stage configuration,
pipeline) for a "workflow run update" (WRU) draft validator.  The CDK sources
are embedded below as executable Lean definitions.  The Python lambda core
(schema resolver / validator / emitter / handler, entry
`wru_validator/lambda/wru_draft_validator.py`) is referenced by the stack but
its source is not part of this tree, so the core is modelled from the
specification where needed; each such definition is marked
`Modelled from the spec:`.
-/

namespace WruValidator

/-! ### Core data model (validator / handler), modelled from the spec -/

/-- Modelled from the spec: the expected type tag of a schema field
(string, number, boolean, object, array, enum-of-values).  The lambda core
holding this type is not under `src/`. -/
inductive TypeTag where
  | tString
  | tNumber
  | tBoolean
  | tObject
  | tArray
  | tEnum (values : List String)
deriving DecidableEq, Repr

/-- Modelled from the spec: a runtime value of a draft-record field.  Numbers
are modelled as integers; objects and arrays are atoms here because the
schema model declares no nested shape. -/
inductive Value where
  | vStr (s : String)
  | vNum (n : Int)
  | vBool (b : Bool)
  | vObj
  | vArr
deriving DecidableEq, Repr

/-- Modelled from the spec: one named field of a schema definition, with a
required/optional flag and an expected type tag. -/
structure FieldSpec where
  name : String
  required : Bool
  type : TypeTag
deriving DecidableEq, Repr

/-- Modelled from the spec: the resolved contract, a set of named fields
(field names unique within a definition). -/
structure SchemaDefinition where
  fields : List FieldSpec
deriving DecidableEq, Repr

/-- Modelled from the spec: an untyped payload mapping field names to
values, arriving from an upstream producer. -/
def DraftRecord : Type := List (String × Value)

/-- Looks a field up in a draft record by name. -/
def lookupField (r : DraftRecord) (name : String) : Option Value :=
  (List.find? (fun kv => kv.1 == name) r).map (fun kv => kv.2)

/-- Modelled from the spec: why a field violates the schema. -/
inductive ViolationKind where
  | missingRequired
  | typeMismatch (expected : TypeTag)
  | unrecognized
deriving DecidableEq, Repr

/-- Modelled from the spec: a field violation carrying the field path, the
expectation that failed and a description of the actual value. -/
structure FieldViolation where
  fieldPath : String
  kind : ViolationKind
  actual : String
deriving DecidableEq, Repr

/-- Describes a runtime value for diagnostics. -/
def describeValue : Value → String
  | .vStr _ => "string"
  | .vNum _ => "number"
  | .vBool _ => "boolean"
  | .vObj => "object"
  | .vArr => "array"

/-- Modelled from the spec: does a runtime value match a declared type tag
(numbers must be numeric, booleans boolean, enum values must be members). -/
def typeMatches : TypeTag → Value → Bool
  | .tString, .vStr _ => true
  | .tNumber, .vNum _ => true
  | .tBoolean, .vBool _ => true
  | .tObject, .vObj => true
  | .tArray, .vArr => true
  | .tEnum values, .vStr s => values.contains s
  | _, _ => false

/-- Modelled from the spec: one violation per required field absent from the
record. -/
def missingRequiredViolations (d : SchemaDefinition) (r : DraftRecord) :
    List FieldViolation :=
  (d.fields.filter (fun f => f.required && (lookupField r f.name).isNone)).map
    (fun f => ⟨f.name, .missingRequired, "absent"⟩)

/-- Modelled from the spec: one violation per declared field present in the
record whose runtime type does not match the declared tag. -/
def typeMismatchViolations (d : SchemaDefinition) (r : DraftRecord) :
    List FieldViolation :=
  d.fields.filterMap (fun f =>
    match lookupField r f.name with
    | some v =>
        if typeMatches f.type v then none
        else some ⟨f.name, .typeMismatch f.type, describeValue v⟩
    | none => none)

/-- Modelled from the spec: in strict mode, one violation per record field
not declared by the schema; tolerated otherwise. -/
def unrecognizedViolations (strict : Bool) (d : SchemaDefinition)
    (r : DraftRecord) : List FieldViolation :=
  if strict then
    (r.filter (fun kv => !(d.fields.any (fun f => f.name == kv.1)))).map
      (fun kv => ⟨kv.1, .unrecognized, describeValue kv.2⟩)
  else []

/-- Modelled from the spec: all violations across all fields, collected in
one pass. -/
def allViolations (strict : Bool) (d : SchemaDefinition) (r : DraftRecord) :
    List FieldViolation :=
  missingRequiredViolations d r ++ typeMismatchViolations d r ++
    unrecognizedViolations strict d r

/-- Modelled from the spec: the canonical record contains only fields
declared by the schema, in schema (deterministic) field order. -/
def canonicalize (d : SchemaDefinition) (r : DraftRecord) :
    List (String × Value) :=
  d.fields.filterMap (fun f => (lookupField r f.name).map (fun v => (f.name, v)))

/-- Modelled from the spec: the tagged validation result, either a canonical
record or a non-empty violation list. -/
inductive ValidationOutcome where
  | valid (canonical : List (String × Value))
  | invalid (violations : List FieldViolation)
deriving DecidableEq, Repr

/-- Modelled from the spec: `validate(definition, record)` collects every
violation; on success it emits the canonical record. -/
def validate (strict : Bool) (d : SchemaDefinition) (r : DraftRecord) :
    ValidationOutcome :=
  if (allViolations strict d r).isEmpty then .valid (canonicalize d r)
  else .invalid (allViolations strict d r)

/-! ### Core handler orchestration, modelled from the spec -/

/-- Modelled from the spec: the configuration surface handed to the core:
bus name, schema name, registry name, strictness mode, per-call timeout. -/
structure CoreConfig where
  busName : String
  schemaName : String
  registryName : String
  strict : Bool
  timeoutMs : Nat
deriving DecidableEq, Repr

/-- Modelled from the spec: the outcome of schema resolution — the
definition, a permanent `SchemaNotFound`, or a transient
`RegistryUnavailable`. -/
inductive ResolveResult where
  | resolved (d : SchemaDefinition)
  | schemaNotFound
  | registryUnavailable
deriving DecidableEq, Repr

/-- Modelled from the spec: the outcome of a publish attempt against the
bus — success, or a transient bus unavailability. -/
inductive EmitResult where
  | emitOk
  | busUnavailable
deriving DecidableEq, Repr

/-- Modelled from the spec: the per-record status returned to the caller. -/
inductive RecordStatus where
  | emitted
  | rejected
  | transientFailure
deriving DecidableEq, Repr

/-- Modelled from the spec: the per-record result returned to the caller. -/
structure RecordOutcome where
  recordId : String
  status : RecordStatus
  detail : String
deriving DecidableEq, Repr

/-- Modelled from the spec: the outbound envelope — source identifies this
relay, detail-type equals the schema name, detail is the canonical record. -/
structure OutboundEvent where
  source : String
  detailType : String
  detail : List (String × Value)
deriving DecidableEq, Repr

/-- Modelled from the spec: the source identifier of this relay. -/
def relaySource : String := "orcabus.wruvalidator"

/-- Modelled from the spec: the Failure Reporter produces a structured
diagnostic (never a bus event) from the schema identifier and violations. -/
def reportDiagnostic (schemaName : String) (vs : List FieldViolation) :
    String :=
  "validation failed against schema " ++ schemaName ++ " with " ++
    toString vs.length ++ " violations"

/-- Modelled from the spec: the handler drives one record through
resolve → validate → emit-or-report, returning the per-record outcome
together with the list of publish attempts performed against the event bus.
The resolver and emitter outcomes are supplied by the environment. -/
def processRecord (cfg : CoreConfig) (res : ResolveResult)
    (er : EmitResult) (rid : String) (r : DraftRecord) :
    RecordOutcome × List OutboundEvent :=
  match res with
  | .registryUnavailable => (⟨rid, .transientFailure, "registry unavailable"⟩, [])
  | .schemaNotFound => (⟨rid, .rejected, "schema not found"⟩, [])
  | .resolved d =>
    match validate cfg.strict d r with
    | .invalid vs => (⟨rid, .rejected, reportDiagnostic cfg.schemaName vs⟩, [])
    | .valid canonical =>
      let ev : OutboundEvent := ⟨relaySource, cfg.schemaName, canonical⟩
      match er with
      | .emitOk => (⟨rid, .emitted, "emitted"⟩, [ev])
      | .busUnavailable => (⟨rid, .transientFailure, "bus unavailable"⟩, [ev])

/-! ### Deployment model, embedded from the CDK sources -/

/-- Embeds `VpcLookupOptions` passed as `vpcProps`; the repository only ever
uses the single external constant `VPC_LOOKUP_PROPS`, so a tag suffices. -/
structure VpcLookupOptions where
  tag : String
deriving DecidableEq, Repr

/-- External constant imported from the shared-config package
(`@orcabus/platform-cdk-constructs/shared-config/networking`); its exact
value lives outside this repository, only its constancy matters here. -/
def VPC_LOOKUP_PROPS : VpcLookupOptions := ⟨"main-vpc"⟩

/-- External constant imported from the shared-config package; a single
fixed security-group name. -/
def SHARED_SECURITY_GROUP_NAME : String := "OrcaBusSharedComputeSecurityGroup"

/-- External constant imported from the shared-config package; the fixed
name of the shared OrcaBus event bus. -/
def EVENT_BUS_NAME : String := "OrcaBusMain"

/-- Embeds the `StageName` union used by the pipeline (`BETA`, `GAMMA`,
`PROD`). -/
inductive StageName where
  | BETA
  | GAMMA
  | PROD
deriving DecidableEq, Repr

/-- The string a stage name denotes. -/
def StageName.label : StageName → String
  | .BETA => "BETA"
  | .GAMMA => "GAMMA"
  | .PROD => "PROD"

/-- Embeds `WruValidatorStackProps` from `deployment-stack.ts`. -/
structure WruValidatorStackProps where
  lambdaSecurityGroupName : String
  vpcProps : VpcLookupOptions
  mainBusName : String
  stage : String
deriving DecidableEq, Repr

/-- Embeds `getStackProps` from `stage/config.ts`: every field except the
pass-through stage label is an external shared-config constant. -/
def getStackProps (stage : StageName) : WruValidatorStackProps :=
  { vpcProps := VPC_LOOKUP_PROPS
    lambdaSecurityGroupName := SHARED_SECURITY_GROUP_NAME
    mainBusName := EVENT_BUS_NAME
    stage := stage.label }

/-- Embeds one IAM policy statement (actions plus resource ARNs). -/
structure PolicyStatement where
  actions : List String
  resources : List String
deriving DecidableEq, Repr

/-- Embeds one provisioned Python lambda function with the properties the
stack sets on it. -/
structure PythonFunction where
  name : String
  index : String
  handler : String
  environment : List (String × String)
  timeoutSeconds : Nat
  memorySize : Nat
deriving DecidableEq, Repr

/-- The ARN CDK derives for an event bus imported by name via
`EventBus.fromEventBusName`. -/
def eventBusArn (region account busName : String) : String :=
  "arn:aws:events:" ++ region ++ ":" ++ account ++ ":event-bus/" ++ busName

/-- The ARN of a named schema registry, as interpolated in the stack. -/
def schemasRegistryArn (region account registryName : String) : String :=
  "arn:aws:schemas:" ++ region ++ ":" ++ account ++ ":registry/" ++ registryName

/-- Embeds the `lambdaEnv` initialization of the `WruValidatorStack`
constructor: the environment variables given to the validator function. -/
def wruLambdaEnv (props : WruValidatorStackProps) : List (String × String) :=
  [ ("POWERTOOLS_SERVICE_NAME", "wru-validator"),
    ("POWERTOOLS_LOG_LEVEL", "INFO"),
    ("EVENT_BUS_NAME", props.mainBusName),
    ("SCHEMA_NAME", "orcabus.workflowmanager@WorkflowRunUpdate"),
    ("SCHEMA_REGISTRY_NAME", "orcabus.workflowmanager") ]

/-- Embeds the schema-registry `PolicyStatement` added to the lambda role:
describe/get/list schema actions on the `discovered-schemas` registry ARNs. -/
def schemaRegistryStatement (region account : String) : PolicyStatement :=
  { actions := ["schemas:DescribeSchema", "schemas:GetDiscoveredSchema",
      "schemas:ListSchemas"]
    resources := [schemasRegistryArn region account "discovered-schemas",
      "arn:aws:schemas:" ++ region ++ ":" ++ account ++
        ":schema/discovered-schemas/*"] }

/-- Embeds the `events:PutEvents` `PolicyStatement` added to the lambda
role, on the imported main bus ARN. -/
def putEventsStatement (region account : String)
    (props : WruValidatorStackProps) : PolicyStatement :=
  { actions := ["events:PutEvents"]
    resources := [eventBusArn region account props.mainBusName] }

/-- Embeds `createEventBridgeValidator` and `createPythonFunction`: the one
`WruDraftValidator` function with the shared environment, a 28 second
timeout and 1024 MB of memory. -/
def wruDraftValidatorFn (props : WruValidatorStackProps) : PythonFunction :=
  { name := "WruDraftValidator"
    index := "wru_validator/lambda/wru_draft_validator.py"
    handler := "lambda_handler"
    environment := wruLambdaEnv props
    timeoutSeconds := 28
    memorySize := 1024 }

/-- The observable result of instantiating `WruValidatorStack`. -/
structure WruValidatorStack where
  lambdaEnv : List (String × String)
  managedPolicyNames : List String
  policyStatements : List PolicyStatement
  functions : List PythonFunction
deriving DecidableEq, Repr

/-- Embeds the `WruValidatorStack` constructor from `deployment-stack.ts`:
the environment, the three AWS managed policies, the two inline policy
statements, the `grantPutEventsTo` grant (another `events:PutEvents`
statement on the main bus ARN), and the single validator function. -/
def buildWruValidatorStack (region account : String)
    (props : WruValidatorStackProps) : WruValidatorStack :=
  { lambdaEnv := wruLambdaEnv props
    managedPolicyNames := ["service-role/AWSLambdaBasicExecutionRole",
      "service-role/AWSLambdaVPCAccessExecutionRole",
      "AmazonSSMReadOnlyAccess"]
    policyStatements := [schemaRegistryStatement region account,
      putEventsStatement region account props,
      putEventsStatement region account props]
    functions := [wruDraftValidatorFn props] }

/-! ### Configuration surface (spec side, for refinement comparison) -/

/-- Stated from the spec for refinement comparison: the five recognized
options of the configuration surface. -/
inductive ConfigOption where
  | busName
  | schemaName
  | registryName
  | strict
  | timeoutMs
deriving DecidableEq, Repr

/-- Stated from the spec for refinement comparison: the full configuration
surface `busName, schemaName, registryName, strict, timeoutMs`. -/
def specConfigSurface : List ConfigOption :=
  [.busName, .schemaName, .registryName, .strict, .timeoutMs]

/-- Maps an environment-variable key to the configuration option it
supplies: the three keys the stack actually sets, plus the plausible
spellings a strictness flag or a per-call timeout budget would use. -/
def optionOfEnvKey (k : String) : Option ConfigOption :=
  if k == "EVENT_BUS_NAME" then some .busName
  else if k == "SCHEMA_NAME" then some .schemaName
  else if k == "SCHEMA_REGISTRY_NAME" then some .registryName
  else if k == "STRICT" || k == "STRICT_MODE" || k == "VALIDATION_STRICT"
    then some .strict
  else if k == "TIMEOUT_MS" || k == "TIMEOUT" || k == "DEPENDENCY_TIMEOUT_MS"
    then some .timeoutMs
  else none

/-- Does an environment supply a setting for a given configuration
option. -/
def envSuppliesOption (env : List (String × String)) (o : ConfigOption) :
    Bool :=
  env.any (fun kv => optionOfEnvKey kv.1 == some o)

/-- Does the string `s` start with the string `p`, checked over the
underlying character lists. -/
def strStartsWith (p s : String) : Bool :=
  p.data.isPrefixOf s.data

/-- Is an IAM action one of the read-only describe/get/list schema
operations. -/
def isSchemaReadAction (a : String) : Bool :=
  strStartsWith "schemas:Describe" a || strStartsWith "schemas:Get" a ||
    strStartsWith "schemas:List" a

/-- The stage props actually deployed for the beta stage; used as a concrete
instantiation point. -/
def betaProps : WruValidatorStackProps := getStackProps .BETA

/-! ### Concrete example inputs -/

/-- Decidable form of "the field is required but absent from the record". -/
def isMissingRequired (r : DraftRecord) (f : FieldSpec) : Bool :=
  f.required && (lookupField r f.name).isNone

/-- Decidable form of "the field is present in the record with a value whose
type does not match the declared tag". -/
def hasTypeMismatch (r : DraftRecord) (f : FieldSpec) : Bool :=
  (lookupField r f.name).any (fun v => !typeMatches f.type v)

/-- The example schema of the spec: a required string `workflowRunId` and a
required `status` drawn from the workflow-state enum. -/
def exSchema : SchemaDefinition :=
  ⟨[⟨"workflowRunId", true, .tString⟩,
    ⟨"status", true, .tEnum ["DRAFT", "QUEUED", "RUNNING", "SUCCEEDED",
      "FAILED"]⟩]⟩

/-- An example draft record missing `workflowRunId` and carrying a numeric
`status`. -/
def exBadRecord : DraftRecord := [("status", Value.vNum 5)]

/-- An example core configuration matching the deployed environment. -/
def exCfg : CoreConfig :=
  ⟨"OrcaBusMain", "orcabus.workflowmanager@WorkflowRunUpdate",
    "orcabus.workflowmanager", false, 1000⟩

/-! ### Helper lemmas -/

/-- A required field absent from the record contributes its violation to the
missing-required list. -/
theorem mem_missing_violation (d : SchemaDefinition) (r : DraftRecord)
    (f : FieldSpec) (hf : f ∈ d.fields) (hreq : f.required = true)
    (habs : lookupField r f.name = none) :
    FieldViolation.mk f.name .missingRequired "absent" ∈
      missingRequiredViolations d r := by
  unfold missingRequiredViolations
  exact List.mem_map.mpr ⟨f, List.mem_filter.mpr ⟨hf, by simp [hreq, habs]⟩, rfl⟩

/-- A present field whose value mismatches its declared type contributes its
violation to the type-mismatch list. -/
theorem mem_mismatch_violation (d : SchemaDefinition) (r : DraftRecord)
    (f : FieldSpec) (v : Value) (hf : f ∈ d.fields)
    (hl : lookupField r f.name = some v)
    (ht : typeMatches f.type v = false) :
    FieldViolation.mk f.name (.typeMismatch f.type) (describeValue v) ∈
      typeMismatchViolations d r := by
  unfold typeMismatchViolations
  exact List.mem_filterMap.mpr ⟨f, hf, by simp [hl, ht]⟩

/-- If any violation exists, `validate` returns `invalid` carrying the full
collected list. -/
theorem validate_invalid_of_mem (strict : Bool) (d : SchemaDefinition)
    (r : DraftRecord) (w : FieldViolation)
    (hw : w ∈ allViolations strict d r) :
    validate strict d r = .invalid (allViolations strict d r) := by
  have hne := List.ne_nil_of_mem hw
  unfold validate
  cases hlist : allViolations strict d r with
  | nil => exact absurd hlist hne
  | cons a t => rfl

/-! ### Claims -/

/-- C1: a record whose per-record outcome is `rejected` (the record failed
validation or its schema permanently does not exist) is never the subject of
a publish operation against the event bus: the handler performs no publish
attempt for it. -/
theorem C1_rejected_never_published (cfg : CoreConfig) (res : ResolveResult)
    (er : EmitResult) (rid : String) (r : DraftRecord)
    (h : (processRecord cfg res er rid r).1.status = .rejected) :
    (processRecord cfg res er rid r).2 = [] := by
  cases res with
  | registryUnavailable => simp [processRecord] at h
  | schemaNotFound => simp [processRecord]
  | resolved d =>
    cases hv : validate cfg.strict d r with
    | invalid vs => simp [processRecord, hv]
    | valid c => cases er <;> simp [processRecord, hv] at h

/-- Witness for C1 at a concrete rejected record. -/
theorem C1_rejected_never_published_witness :
    (processRecord exCfg (.resolved exSchema) .emitOk "r1" exBadRecord).1.status
        = .rejected ∧
    (processRecord exCfg (.resolved exSchema) .emitOk "r1" exBadRecord).2 = [] :=
  ⟨by decide,
    C1_rejected_never_published exCfg (.resolved exSchema) .emitOk "r1"
      exBadRecord (by decide)⟩

/-- C2: for every schema definition and every record missing at least one
required field or containing at least one type mismatch, `validate` returns
`Invalid` carrying a violation entry for every offending field, not only the
first. -/
theorem C2_validate_reports_every_offending_field (strict : Bool)
    (d : SchemaDefinition) (r : DraftRecord)
    (h : ∃ f ∈ d.fields,
      isMissingRequired r f = true ∨ hasTypeMismatch r f = true) :
    ∃ vs, validate strict d r = .invalid vs ∧
      (∀ f ∈ d.fields, f.required = true → lookupField r f.name = none →
        FieldViolation.mk f.name .missingRequired "absent" ∈ vs) ∧
      (∀ f ∈ d.fields, ∀ v, lookupField r f.name = some v →
        typeMatches f.type v = false →
        FieldViolation.mk f.name (.typeMismatch f.type) (describeValue v)
          ∈ vs) := by
  refine ⟨allViolations strict d r, ?_, ?_, ?_⟩
  · obtain ⟨f, hf, hcase⟩ := h
    rcases hcase with hmiss | hmism
    · unfold isMissingRequired at hmiss
      simp only [Bool.and_eq_true, Option.isNone_iff_eq_none] at hmiss
      obtain ⟨hreq, habs⟩ := hmiss
      exact validate_invalid_of_mem _ _ _ _
        (List.mem_append_left _ (List.mem_append_left _
          (mem_missing_violation d r f hf hreq habs)))
    · unfold hasTypeMismatch at hmism
      cases hl : lookupField r f.name with
      | none => rw [hl] at hmism; simp at hmism
      | some v =>
        rw [hl] at hmism
        have ht : typeMatches f.type v = false := by
          simpa using hmism
        exact validate_invalid_of_mem _ _ _ _
          (List.mem_append_left _ (List.mem_append_right _
            (mem_mismatch_violation d r f v hf hl ht)))
  · intro f hf hreq habs
    exact List.mem_append_left _ (List.mem_append_left _
      (mem_missing_violation d r f hf hreq habs))
  · intro f hf v hl ht
    exact List.mem_append_left _ (List.mem_append_right _
      (mem_mismatch_violation d r f v hf hl ht))

/-- Witness for C2 at the record missing `workflowRunId` and carrying a
numeric `status`. -/
theorem C2_validate_reports_every_offending_field_witness :
    (∃ f ∈ exSchema.fields,
      isMissingRequired exBadRecord f = true ∨
        hasTypeMismatch exBadRecord f = true) ∧
    (∃ vs, validate false exSchema exBadRecord = .invalid vs ∧
      (∀ f ∈ exSchema.fields, f.required = true →
        lookupField exBadRecord f.name = none →
        FieldViolation.mk f.name .missingRequired "absent" ∈ vs) ∧
      (∀ f ∈ exSchema.fields, ∀ v, lookupField exBadRecord f.name = some v →
        typeMatches f.type v = false →
        FieldViolation.mk f.name (.typeMismatch f.type) (describeValue v)
          ∈ vs)) :=
  ⟨by decide,
    C2_validate_reports_every_offending_field false exSchema exBadRecord
      (by decide)⟩

/-- C3: a schema-resolution failure caused by a transient dependency
condition (registry unreachable) always yields the per-record outcome
`transientFailure`, never `rejected`. -/
theorem C3_registry_unavailable_transient (cfg : CoreConfig)
    (er : EmitResult) (rid : String) (r : DraftRecord) :
    (processRecord cfg .registryUnavailable er rid r).1.status
        = .transientFailure ∧
    (processRecord cfg .registryUnavailable er rid r).1.status
        ≠ .rejected := by
  simp [processRecord]

/-- C4 counterexample: at the beta stage the environment handed to the
validator function does not supply a setting for every one of the five
configuration-surface options; the strictness flag and the timeout budget
are absent. -/
theorem C4_env_five_options_counterexample :
    ¬ (∀ f ∈ (buildWruValidatorStack "ap-southeast-2" "472057503814"
          betaProps).functions,
        ∀ o ∈ specConfigSurface, envSuppliesOption f.environment o = true) := by
  decide

/-- C4 amended: for every stage, region and account, the environment of the
validator function supplies settings exactly for the bus name, the schema
name and the registry name; no strictness flag and no per-dependency-call
timeout setting is supplied. -/
theorem C4_env_supplies_only_names (region account : String)
    (props : WruValidatorStackProps) :
    ((buildWruValidatorStack region account props).functions.map (fun f =>
      (envSuppliesOption f.environment .busName,
        envSuppliesOption f.environment .schemaName,
        envSuppliesOption f.environment .registryName,
        envSuppliesOption f.environment .strict,
        envSuppliesOption f.environment .timeoutMs))) =
      [(true, true, true, false, false)] := rfl

/-- C5: every IAM action of the policy statement whose resources are the
schema-registry ARNs is a read-only describe/get/list schema operation. -/
theorem C5_schema_registry_grant_read_only (region account : String)
    (props : WruValidatorStackProps) (st : PolicyStatement)
    (hmem : st ∈ (buildWruValidatorStack region account
        props).policyStatements)
    (hres : st.resources = (schemaRegistryStatement region account).resources) :
    ∀ a ∈ st.actions, isSchemaReadAction a = true := by
  simp only [buildWruValidatorStack, List.mem_cons, List.not_mem_nil,
    or_false] at hmem
  rcases hmem with h1 | h1 | h1
  · subst h1
    intro a ha
    simp only [schemaRegistryStatement, List.mem_cons, List.not_mem_nil,
      or_false] at ha
    rcases ha with rfl | rfl | rfl <;> decide
  · subst h1
    exfalso
    simp [putEventsStatement, schemaRegistryStatement] at hres
  · subst h1
    exfalso
    simp [putEventsStatement, schemaRegistryStatement] at hres

/-- Witness for C5 at the schema-registry statement of a concrete stack. -/
theorem C5_schema_registry_grant_read_only_witness :
    (schemaRegistryStatement "ap-southeast-2" "472057503814" ∈
      (buildWruValidatorStack "ap-southeast-2" "472057503814"
        betaProps).policyStatements) ∧
    (∀ a ∈ (schemaRegistryStatement "ap-southeast-2" "472057503814").actions,
      isSchemaReadAction a = true) :=
  ⟨by decide,
    C5_schema_registry_grant_read_only "ap-southeast-2" "472057503814"
      betaProps (schemaRegistryStatement "ap-southeast-2" "472057503814")
      (by decide) rfl⟩

/-- C6: every policy statement of the stack that grants any `events:` action
grants exactly the single action `events:PutEvents`, and only on the ARN of
the bus imported under the configured main bus name. -/
theorem C6_put_events_only_on_main_bus (region account : String)
    (props : WruValidatorStackProps) (st : PolicyStatement)
    (hmem : st ∈ (buildWruValidatorStack region account
        props).policyStatements)
    (h : ∃ a ∈ st.actions, strStartsWith "events:" a = true) :
    st.actions = ["events:PutEvents"] ∧
    st.resources = [eventBusArn region account props.mainBusName] := by
  simp only [buildWruValidatorStack, List.mem_cons, List.not_mem_nil,
    or_false] at hmem
  rcases hmem with h1 | h1 | h1
  · exfalso
    subst h1
    obtain ⟨a, ha, hpre⟩ := h
    simp only [schemaRegistryStatement, List.mem_cons, List.not_mem_nil,
      or_false] at ha
    rcases ha with rfl | rfl | rfl <;> exact absurd hpre (by decide)
  · subst h1; exact ⟨rfl, rfl⟩
  · subst h1; exact ⟨rfl, rfl⟩

/-- Witness for C6 at the `events:PutEvents` statement of a concrete
stack. -/
theorem C6_put_events_only_on_main_bus_witness :
    (putEventsStatement "ap-southeast-2" "472057503814" betaProps ∈
      (buildWruValidatorStack "ap-southeast-2" "472057503814"
        betaProps).policyStatements) ∧
    ((putEventsStatement "ap-southeast-2" "472057503814" betaProps).actions
        = ["events:PutEvents"] ∧
      (putEventsStatement "ap-southeast-2" "472057503814" betaProps).resources
        = [eventBusArn "ap-southeast-2" "472057503814"
            betaProps.mainBusName]) :=
  ⟨by decide,
    C6_put_events_only_on_main_bus "ap-southeast-2" "472057503814" betaProps
      (putEventsStatement "ap-southeast-2" "472057503814" betaProps)
      (by decide) (by decide)⟩

/-- C7: at a concrete deployed stack the registry name the function is
configured with (`orcabus.workflowmanager`) differs from the registry named
in the schema-registry policy resources (`discovered-schemas`): no policy
statement grants anything on the ARN of the configured registry. -/
theorem C7_registry_grant_config_mismatch :
    (wruLambdaEnv betaProps).lookup "SCHEMA_REGISTRY_NAME"
        = some "orcabus.workflowmanager" ∧
    ((buildWruValidatorStack "ap-southeast-2" "472057503814"
        betaProps).policyStatements.any (fun st =>
      st.resources.contains
        (schemasRegistryArn "ap-southeast-2" "472057503814"
          "orcabus.workflowmanager"))) = false ∧
    ((buildWruValidatorStack "ap-southeast-2" "472057503814"
        betaProps).policyStatements.any (fun st =>
      st.resources.contains
        (schemasRegistryArn "ap-southeast-2" "472057503814"
          "discovered-schemas"))) = true ∧
    ("orcabus.workflowmanager" : String) ≠ "discovered-schemas" := by
  refine ⟨rfl, ?_, ?_, ?_⟩ <;> decide

/-- C8: every instantiation of the stack provisions exactly one lambda
function, and it is the WRU draft validator handler. -/
theorem C8_exactly_one_function (region account : String)
    (props : WruValidatorStackProps) :
    (buildWruValidatorStack region account props).functions.length = 1 ∧
    ((buildWruValidatorStack region account props).functions.map (fun f =>
      (f.name, f.index, f.handler))) =
      [("WruDraftValidator", "wru_validator/lambda/wru_draft_validator.py",
        "lambda_handler")] :=
  ⟨rfl, rfl⟩

/-- C9: the stage input influences nothing but the stage label itself:
`getStackProps s1` equals `getStackProps s2` with only the stage field
replaced. -/
theorem C9_stage_only_difference (s1 s2 : StageName) :
    getStackProps s1 =
      { getStackProps s2 with stage := (getStackProps s1).stage } := rfl

/-- C10: the bus the runtime is configured to emit to is the bus it is
permitted to emit to: the `EVENT_BUS_NAME` of the function equals
`props.mainBusName`, and the `events:PutEvents` statement on the ARN of the
bus imported under that same name is attached to the role. -/
theorem C10_env_bus_matches_grant (region account : String)
    (props : WruValidatorStackProps) :
    ((buildWruValidatorStack region account props).functions.map (fun f =>
      f.environment.lookup "EVENT_BUS_NAME")) = [some props.mainBusName] ∧
    putEventsStatement region account props ∈
      (buildWruValidatorStack region account props).policyStatements ∧
    (putEventsStatement region account props).resources =
      [eventBusArn region account props.mainBusName] := by
  refine ⟨rfl, ?_, rfl⟩
  exact List.mem_cons_of_mem _ (List.mem_cons_self _ _)

end WruValidator
